import Mathlib

/-!
Verification of the pyawsutils collection of AWS utility scripts.

Each Python script is shallowly embedded: pure computations become Lean
functions, the effectful main loops become explicit state-passing functions
whose outputs record the externally visible events (console prints, file
writes, remote delete calls, process exit).  Remote AWS responses (pages of
instances, VPCs, object versions) are parameters of the embedded functions,
since the scripts treat them as opaque paginated data sources.
-/

/-- Python dict insertion `m[k] = v`: an existing key keeps its position and
gets the new value, a new key is appended.  Used wherever a script builds a
dict incrementally (`instances_found`, `vpcs_found`, `enis`,
`cidrassociations`). -/
def dictInsert {α : Type} (m : List (String × α)) (k : String) (v : α) :
    List (String × α) :=
  if m.any (fun p => p.1 = k) then
    m.map (fun p => if p.1 = k then (k, v) else p)
  else m ++ [(k, v)]

namespace Ec2

/-- The allow-list `VALID_REGIONS` of `list_ec2_instances.py` lines 19-20
(the identical set appears in `ssm_disable_public_doc.py` lines 11-12). -/
def VALID_REGIONS : List String :=
  ["us-east-1", "us-east-2", "us-west-1", "us-west-2",
   "ca-central-1", "eu-west-1", "eu-west-2", "eu-central-1"]

/-- The filter `invalid_regions = [r for r in args.regions if r not in VALID_REGIONS]`
(`list_ec2_instances.py` line 246, `ssm_disable_public_doc.py` line 82). -/
def invalid_regions (regions : List String) : List String :=
  regions.filter (fun r => !(VALID_REGIONS.contains r))

/-- Outcome of the `__main__` block up to the call of `main`: whether the
process exited, the error it logged, and whether `main` (which performs every
remote call of the script) was invoked. -/
structure StartupResult where
  exitCode : Option Nat
  errorLog : Option String
  mainInvoked : Bool
  deriving DecidableEq, Repr

/-- The region-validation part of the `__main__` block of
`list_ec2_instances.py` lines 246-249 (same shape in
`ssm_disable_public_doc.py` lines 82-85): a non-empty invalid list logs one
message naming every invalid region and exits with status 1 before `main`
ever runs; otherwise `main` is invoked. -/
def scriptStartup (regions : List String) : StartupResult :=
  let inv := invalid_regions regions
  if inv.isEmpty then
    { exitCode := none, errorLog := none, mainInvoked := true }
  else
    { exitCode := some 1,
      errorLog := some ("Invalid region(s) specified: " ++ String.intercalate ", " inv),
      mainInvoked := false }

/-- The composite key `f"{inst['InstanceId']}_{acct_num}_{region}"` of
`list_ec2_instances.py` line 78. -/
def ec2Key (instanceId acct_num region : String) : String :=
  instanceId ++ "_" ++ acct_num ++ "_" ++ region

end Ec2

namespace Vpc

/-- One element of a VPC's `CidrBlockAssociationSet`. -/
structure VpcCidrAssoc where
  associationId : String
  cidrBlock : String
  deriving DecidableEq, Repr

/-- The fields of one native VPC record that `list_vpcs.py` lines 49-66 read.
`ipv6Set` models the optional `Ipv6CidrBlockAssociationSet`; each element is
the (optional) `Ipv6CidrBlock` field of one association. -/
structure VpcData where
  vpcId : String
  cidrBlock : String
  ipv6Set : Option (List (Option String))
  cidrAssocSet : List VpcCidrAssoc
  deriving DecidableEq, Repr

/-- The value stored per VPC in `vpcs_found` (`list_vpcs.py` lines 50-56).
`cidr6` is `some ""` initially and may be overwritten by
`ipv6_set[0].get('Ipv6CidrBlock')`, which can itself be `None`. -/
structure VpcInfo where
  account_id : String
  region : String
  cidr : String
  cidr6 : Option String
  cidrassociations : List (String × String)
  deriving DecidableEq, Repr

/-- The normalization of one VPC of `list_vpcs.py` lines 49-66: the entry
written into `vpcs_found`.  The key (first component) is `vpc['VpcId']`
alone. -/
def vpcEntry (acct_num region : String) (vpc : VpcData) : String × VpcInfo :=
  (vpc.vpcId,
   { account_id := acct_num
     region := region
     cidr := vpc.cidrBlock
     cidr6 :=
       match vpc.ipv6Set with
       | none => some ""
       | some [] => some ""
       | some (a :: _) => a
     cidrassociations :=
       vpc.cidrAssocSet.foldl
         (fun m a => dictInsert m a.associationId a.cidrBlock) [] })

end Vpc

namespace Valkyrie

/-- The global `DRY_RUN` gate and the user confirmation of
`confirm_destruction_via_valkyrie` (`s3_valkyrie.py` lines 80-102):
whether the prompt was shown and whether the gate returned `True`. -/
structure GateResult where
  prompted : Bool
  confirmed : Bool
  deriving DecidableEq, Repr

/-- The gate `confirm_destruction_via_valkyrie` (`s3_valkyrie.py` lines 80-102): with
`DRY_RUN` true it returns `True` at once without prompting; otherwise it
prompts and returns `True` exactly when the entered text equals `'yes'`. -/
def confirm_destruction_via_valkyrie (dryRun : Bool) (userInput : String) :
    GateResult :=
  if dryRun then { prompted := false, confirmed := true }
  else if userInput = "yes" then { prompted := true, confirmed := true }
  else { prompted := true, confirmed := false }

/-- The `__main__` block of `s3_valkyrie.py` lines 105-109: `main()` (the
sweep body) runs exactly when the gate returned `True`. -/
def sweepBodyRuns (dryRun : Bool) (userInput : String) : Bool :=
  (confirm_destruction_via_valkyrie dryRun userInput).confirmed

end Valkyrie

namespace TableFmt

/-- Python slice `l[:k]` for an `int` bound `k` that may be negative:
`l[:k] = l[0 : max(0, len(l)+k)]` when `k < 0`. -/
def pySliceTo (l : List Char) (k : Int) : List Char :=
  if 0 ≤ k then l.take k.toNat else l.take (l.length - (-k).toNat)

/-- The per-column truncation of `format_table_data` in truncate mode
(`list_ec2_instances.py` lines 199-207, `list_s3_buckets.py` lines 151-157):
`if len(v) > budget: v = v[:budget - 3] + "..."`. -/
def truncateField (s : String) (budget : Nat) : String :=
  if budget < s.length then ⟨pySliceTo s.data ((budget : Int) - 3)⟩ ++ "..." else s

/-- The characters Python `textwrap`'s default `replace_whitespace` maps to a
space: `'\t\n\x0b\x0c\r '`. -/
def pyWS (c : Char) : Bool :=
  c == '\x09' || c == '\x0a' || c == '\x0b' || c == '\x0c' || c == '\x0d' || c == '\x20'

/-- Python `replace_whitespace`: every whitespace character becomes a space. -/
def normalizeWS (l : List Char) : List Char :=
  l.map (fun c => if pyWS c then '\x20' else c)

/-- A chunk that `str.strip()` reduces to the empty string (after
normalization, a run of spaces or an empty leftover chunk). -/
def isSpaceChunk (c : List Char) : Bool :=
  c.all (fun ch => ch == '\x20')

/-- The chunk splitter of `textwrap` restricted to text without hyphens:
maximal runs of spaces alternating with maximal runs of non-spaces. -/
def splitChunks : List Char → List (List Char)
  | [] => []
  | c :: cs =>
    match splitChunks cs with
    | [] => [[c]]
    | chunk :: rest =>
      match chunk with
      | [] => [[c]]
      | d :: _ =>
        if (c == '\x20') = (d == '\x20') then (c :: chunk) :: rest
        else [c] :: chunk :: rest

/-- Total character count of a chunk list. -/
def chunksLen (l : List (List Char)) : Nat :=
  (l.map List.length).sum

/-- The greedy inner loop of `textwrap._wrap_chunks`: move whole chunks onto
the current line while the accumulated length stays within `w`; return the
line and the remaining chunks. -/
def fillLine (w : Nat) : Nat → List (List Char) → List (List Char) × List (List Char)
  | _, [] => ([], [])
  | curLen, c :: cs =>
    if curLen + c.length ≤ w then
      let r := fillLine w (curLen + c.length) cs
      (c :: r.1, r.2)
    else ([], c :: cs)

/-- Python `drop_whitespace` at the end of a line: remove the last chunk when it is
all whitespace. -/
def dropTrailingSpaceChunk (line : List (List Char)) : List (List Char) :=
  match line.getLast? with
  | some c => if isSpaceChunk c then line.dropLast else line
  | none => line

/-- One iteration of `textwrap._wrap_chunks` (default options, no hyphens):
drop a leading whitespace chunk once some line was emitted, fill greedily,
break a remaining over-width chunk (`_handle_long_word` with
`break_long_words`), drop trailing whitespace, and emit the line if it is
non-empty.  Returns the emitted line (if any) and the remaining chunks. -/
def lineStep (w : Nat) (linesEmpty : Bool) (chunks : List (List Char)) :
    Option (List Char) × List (List Char) :=
  let cs0 :=
    match linesEmpty, chunks with
    | false, c :: cs => if isSpaceChunk c then cs else c :: cs
    | _, cs => cs
  let fl := fillLine w 0 cs0
  let withLong :=
    match fl.2 with
    | c :: cs =>
      if w < c.length then
        let spaceLeft := if w < 1 then 1 else w - chunksLen fl.1
        (fl.1 ++ [c.take spaceLeft], c.drop spaceLeft :: cs)
      else fl
    | [] => fl
  let line := dropTrailingSpaceChunk withLong.1
  if line.isEmpty then (none, withLong.2) else (some line.flatten, withLong.2)

/-- The outer loop of `textwrap._wrap_chunks`, fuelled: every iteration
consumes at least one character or chunk, so `chunksLen + length + 1` fuel
always suffices. -/
def wrapChunksFuel (w : Nat) : Nat → Bool → List (List Char) → List (List Char)
  | 0, _, _ => []
  | _ + 1, _, [] => []
  | fuel + 1, linesEmpty, c :: cs =>
    match lineStep w linesEmpty (c :: cs) with
    | (some line, rest) => line :: wrapChunksFuel w fuel false rest
    | (none, rest) => wrapChunksFuel w fuel linesEmpty rest

/-- Model of Python `textwrap.wrap(s, width=w)` with the default options
(`replace_whitespace`, `drop_whitespace`, `break_long_words`), exact for
inputs without tabs or hyphens (on such inputs `expand_tabs` and
`break_on_hyphens` do nothing). -/
def pythonWrap (s : String) (w : Nat) : List String :=
  let chunks := splitChunks (normalizeWS s.data)
  (wrapChunksFuel w (chunksLen chunks + chunks.length + 1) true chunks).map
    (fun d => (⟨d⟩ : String))

/-- The wrap branch of `format_table_data`
(`list_ec2_instances.py` lines 210-213, `list_s3_buckets.py` lines 160-162):
`"\n".join(textwrap.wrap(v, width=budget))`. -/
def wrapField (s : String) (budget : Nat) : String :=
  String.intercalate "\n" (pythonWrap s budget)

end TableFmt

namespace Ec2

/-- One element of `inst['NetworkInterfaces']`, with the four fields that
`list_ec2_instances.py` lines 70-76 read (all accessed with `[]`, hence
required). -/
structure EniData where
  networkInterfaceId : String
  privateIpAddress : String
  ipv6Addresses : List String
  vpcId : String
  subnetId : String
  deriving DecidableEq, Repr

/-- The value stored per network interface in the `enis` dict. -/
structure EniInfo where
  privateIpAddress : String
  ipv6Addresses : List String
  vpcId : String
  subnetId : String
  deriving DecidableEq, Repr

/-- The fields of one native instance that `list_ec2_instances.py`
lines 61-91 read.  `tags` models the optional `Tags` list of
`{Key, Value}` pairs; `placementAz` flattens
`inst.get('Placement', {}).get('AvailabilityZone', ...)` (absent when either
level is missing); the remaining `Option` fields are the `.get` accesses. -/
structure InstanceData where
  instanceId : String
  tags : Option (List (String × String))
  networkInterfaces : List EniData
  instanceType : String
  stateName : String
  placementAz : Option String
  privateIpAddress : Option String
  publicIpAddress : Option String
  vpcId : Option String
  subnetId : Option String
  deriving DecidableEq, Repr

/-- The record stored per instance in `instances_found`
(`list_ec2_instances.py` lines 79-91).  `publicipv4` is the one field whose
source access `inst.get('PublicIpAddress')` has no default, so it stays
optional; every other `.get` supplies `'N/A'`. -/
structure InstanceRecord where
  instance_id : String
  instance_name : String
  account : String
  type : String
  state : String
  az : String
  privateipv4 : String
  publicipv4 : Option String
  vpc : String
  subnet : String
  enis : List (String × EniInfo)
  deriving DecidableEq, Repr

/-- The tag scan of `list_ec2_instances.py` lines 62-67: the value of the
first tag whose key equals `'Name'`, else `'N/A'`. -/
def lookupNameTag : List (String × String) → String
  | [] => "N/A"
  | (k, v) :: ts => if k = "Name" then v else lookupNameTag ts

/-- The name `instance_name` starts as `'N/A'` and tags are only scanned when `'Tags'` is
present (`list_ec2_instances.py` lines 62-67). -/
def instanceDisplayName (inst : InstanceData) : String :=
  match inst.tags with
  | none => "N/A"
  | some ts => lookupNameTag ts

/-- Normalization of one native instance into its composite key and
`InstanceRecord` (`list_ec2_instances.py` lines 62-91). -/
def normalizeInstance (acct_num region : String) (inst : InstanceData) :
    String × InstanceRecord :=
  let enis := inst.networkInterfaces.foldl
    (fun m eni => dictInsert m eni.networkInterfaceId
      { privateIpAddress := eni.privateIpAddress
        ipv6Addresses := eni.ipv6Addresses
        vpcId := eni.vpcId
        subnetId := eni.subnetId }) []
  (ec2Key inst.instanceId acct_num region,
   { instance_id := inst.instanceId
     instance_name := instanceDisplayName inst
     account := acct_num
     type := inst.instanceType
     state := inst.stateName
     az := inst.placementAz.getD "N/A"
     privateipv4 := inst.privateIpAddress.getD "N/A"
     publicipv4 := inst.publicIpAddress
     vpc := inst.vpcId.getD "N/A"
     subnet := inst.subnetId.getD "N/A"
     enis := enis })

/-- One (profile, region) cell of the collection grid of
`list_ec2_instances.py` lines 41-91: the account number and region, whether
each remote setup step succeeded (each failure is caught and the loop
continues), the pages the paginator yielded before stopping, and whether the
iteration then raised instead of ending normally.  A page is a list of
reservations, each a list of instances. -/
structure CellData where
  acct_num : String
  region : String
  clientOk : Bool
  stsOk : Bool
  paginatorOk : Bool
  pages : List (List (List InstanceData))
  pageIterError : Bool
  deriving Repr

/-- The records one cell folds into `instances_found`: every instance of
every reservation of every yielded page, inserted in order
(`list_ec2_instances.py` lines 59-91). -/
def insertCellPages (found : List (String × InstanceRecord)) (c : CellData) :
    List (String × InstanceRecord) :=
  c.pages.foldl
    (fun acc page =>
      page.foldl
        (fun acc resv =>
          resv.foldl
            (fun acc inst =>
              let e := normalizeInstance c.acct_num c.region inst
              dictInsert acc e.1 e.2) acc) acc) found

/-- What one cell contributes: nothing when a caught setup step failed,
otherwise the fold of its yielded pages. -/
def cellStep (found : List (String × InstanceRecord)) (c : CellData) :
    List (String × InstanceRecord) :=
  if c.clientOk && c.stsOk && c.paginatorOk then insertCellPages found c
  else found

/-- One cell of the loop body of `list_ec2_instances.py` lines 41-91.
Client construction (lines 42-46), the STS account lookup (lines 48-52) and
`get_paginator` (lines 54-57) each sit in a `try/except` that logs and moves
on; the `for page in paginator.paginate()` loop (lines 59-91) does not, so an
error raised while iterating pages propagates out of `main` (`Except.error`),
carrying the collection as built so far. -/
def processCell (found : List (String × InstanceRecord)) (c : CellData) :
    Except (List (String × InstanceRecord)) (List (String × InstanceRecord)) :=
  if !c.clientOk then .ok found
  else if !c.stsOk then .ok found
  else if !c.paginatorOk then .ok found
  else
    let after := insertCellPages found c
    if c.pageIterError then .error after else .ok after

/-- The grid loop of `list_ec2_instances.py` lines 32-91 over the flattened
(profile × region) cells: an uncaught page-iteration error aborts the whole
run (the exception propagates out of `main`). -/
def runCells : List CellData → List (String × InstanceRecord) →
    Except (List (String × InstanceRecord)) (List (String × InstanceRecord))
  | [], found => .ok found
  | c :: cs, found =>
    match processCell found c with
    | .ok f => runCells cs f
    | .error f => .error f

/-- The two file output formats of `--outputformat` (argparse `choices`). -/
inductive OutputFormat
  | JSON
  | CSV
  deriving DecidableEq, Repr

/-- A console rendering event of the output phase. -/
inductive ConsoleEvent
  | jsonDump
  | tablePrint
  deriving DecidableEq, Repr

/-- Externally visible effects of the output phase of `main`. -/
structure OutputTrace where
  warnedEmpty : Bool
  console : List ConsoleEvent
  fileWriteAttempted : Bool
  deriving DecidableEq, Repr

/-- The output phase of `main` (`list_ec2_instances.py` lines 93-132; the
same shape appears in `list_vpcs.py` lines 68-101 and `list_s3_buckets.py`
lines 61-92).  An empty collection logs a warning and returns.  Under
`dry_run`, the JSON branch prints the dump and — lacking a `return`, which
only the table branch has — falls through to the file write; the table
branch prints and returns.  Otherwise the file write is attempted. -/
def outputPhase (found : List (String × InstanceRecord)) (dry_run : Bool)
    (outputformat : OutputFormat) : OutputTrace :=
  if found.isEmpty then
    { warnedEmpty := true, console := [], fileWriteAttempted := false }
  else if dry_run then
    match outputformat with
    | .JSON =>
      { warnedEmpty := false, console := [.jsonDump], fileWriteAttempted := true }
    | .CSV =>
      { warnedEmpty := false, console := [.tablePrint], fileWriteAttempted := false }
  else
    { warnedEmpty := false, console := [], fileWriteAttempted := true }

end Ec2

namespace LambdaLister

/-- One row appended to `functions` by `lambda_runtime_lister.py` line 90. -/
structure FunctionRow where
  account : String
  functionName : String
  runtime : String
  region : String
  deriving DecidableEq, Repr

/-- Externally visible effects of the output phase of
`lambda_runtime_lister.py` `main`. -/
structure LambdaOutput where
  consoleLines : Nat
  fileOpened : Bool
  fileRows : List (List String)
  warnedEmpty : Bool
  deriving DecidableEq, Repr

/-- The output phase of `lambda_runtime_lister.py` lines 94-109: with an
empty `--output` it prints a two-line header then one line per function;
otherwise it opens the file and writes the header row followed by every
function row.  No branch checks for an empty collection and none warns
(`warnedEmpty` records that no `logging.warning` call exists on this path). -/
def outputPhase (functions : List FunctionRow) (outfile : String) :
    LambdaOutput :=
  if outfile = "" then
    { consoleLines := 2 + functions.length
      fileOpened := false
      fileRows := []
      warnedEmpty := false }
  else
    { consoleLines := 0
      fileOpened := true
      fileRows := ["Account", "Function Name", "Runtime", "Region"] ::
        functions.map (fun f => [f.account, f.functionName, f.runtime, f.region])
      warnedEmpty := false }

end LambdaLister

namespace Valkyrie

/-- One listed object version or delete marker: its key and version id. -/
structure VersionEntry where
  key : String
  versionId : String
  deriving DecidableEq, Repr

/-- One page of `list_object_versions`: its `Versions` and `DeleteMarkers`
lists (`s3_valkyrie.py` lines 44 and 56). -/
structure PageData where
  versions : List VersionEntry
  deleteMarkers : List VersionEntry
  deriving DecidableEq, Repr

/-- A `delete_object` invocation: (bucket, key, version id). -/
abbrev DeleteCall := String × String × String

/-- The mutable state of `main` (`s3_valkyrie.py` lines 27 and 43-69): the
`delete_object` calls issued so far and the two counters of `deleted`. -/
structure SweepState where
  deleteCalls : List DeleteCall
  objects : Nat
  markers : Nat
  deriving DecidableEq, Repr

/-- Processing of one entry of `page.get('Versions', [])`
(`s3_valkyrie.py` lines 44-54): under `DRY_RUN` only a log line; otherwise a
`delete_object` call whose failure is caught (no counter change) and whose
success increments `deleted['objects']`.  `ok` tells which delete calls the
remote end accepts. -/
def stepVersion (dryRun : Bool) (ok : DeleteCall → Bool) (bucket : String)
    (st : SweepState) (k : VersionEntry) : SweepState :=
  if dryRun then st
  else
    let call : DeleteCall := (bucket, k.key, k.versionId)
    let st := { st with deleteCalls := st.deleteCalls ++ [call] }
    if ok call then { st with objects := st.objects + 1 } else st

/-- Processing of one entry of `page.get('DeleteMarkers', [])`
(`s3_valkyrie.py` lines 56-69), incrementing `deleted['markers']` only on a
successful delete. -/
def stepMarker (dryRun : Bool) (ok : DeleteCall → Bool) (bucket : String)
    (st : SweepState) (k : VersionEntry) : SweepState :=
  if dryRun then st
  else
    let call : DeleteCall := (bucket, k.key, k.versionId)
    let st := { st with deleteCalls := st.deleteCalls ++ [call] }
    if ok call then { st with markers := st.markers + 1 } else st

/-- One page of the sweep (`s3_valkyrie.py` lines 43-69): all versions, then
all delete markers. -/
def processPage (dryRun : Bool) (ok : DeleteCall → Bool) (bucket : String)
    (st : SweepState) (p : PageData) : SweepState :=
  let st1 := p.versions.foldl (stepVersion dryRun ok bucket) st
  p.deleteMarkers.foldl (stepMarker dryRun ok bucket) st1

/-- One (bucket, prefix) unit of `S3_BUCKETS` (`s3_valkyrie.py` lines 32-75):
its listed pages in order.  The prefix only parameterizes the listing and is
absorbed into the pages; a pagination-setup failure or an error raised while
iterating pages ends the unit early, which the model covers by quantifying
over every possible page list. -/
def processBucket (dryRun : Bool) (ok : DeleteCall → Bool) (st : SweepState)
    (unit : String × List PageData) : SweepState :=
  unit.2.foldl (processPage dryRun ok unit.1) st

/-- The sweep `main` of `s3_valkyrie.py` lines 24-77 with the remote listing given as
data: starts from zeroed counters and folds every bucket unit. -/
def sweepMain (dryRun : Bool) (ok : DeleteCall → Bool)
    (buckets : List (String × List PageData)) : SweepState :=
  buckets.foldl (processBucket dryRun ok)
    { deleteCalls := [], objects := 0, markers := 0 }

/-- All delete calls the listing describes for object versions, in listing
order. -/
def versionCalls (buckets : List (String × List PageData)) : List DeleteCall :=
  buckets.flatMap (fun unit =>
    unit.2.flatMap (fun p => p.versions.map (fun k => (unit.1, k.key, k.versionId))))

/-- All delete calls the listing describes for delete markers, in listing
order. -/
def markerCalls (buckets : List (String × List PageData)) : List DeleteCall :=
  buckets.flatMap (fun unit =>
    unit.2.flatMap (fun p => p.deleteMarkers.map (fun k => (unit.1, k.key, k.versionId))))

/-- All delete calls in the order `main` issues them: per page, versions then
markers. -/
def allCalls (buckets : List (String × List PageData)) : List DeleteCall :=
  buckets.flatMap (fun unit =>
    unit.2.flatMap (fun p =>
      p.versions.map (fun k => (unit.1, k.key, k.versionId)) ++
      p.deleteMarkers.map (fun k => (unit.1, k.key, k.versionId))))

end Valkyrie

/-- Whether the embedded run ended in an uncaught exception. -/
def runAborts {ε α : Type} : Except ε α → Bool
  | .error _ => true
  | .ok _ => false

/-- A concrete native instance with every optional field absent (no `Tags`,
no `Placement`, no `PrivateIpAddress`, no `PublicIpAddress`, no `VpcId`, no
`SubnetId`). -/
def Ec2.sampleInstance (id : String) : Ec2.InstanceData :=
  { instanceId := id
    tags := none
    networkInterfaces := []
    instanceType := "t3.micro"
    stateName := "running"
    placementAz := none
    privateIpAddress := none
    publicIpAddress := none
    vpcId := none
    subnetId := none }

/-- A cell whose paginator yields one page with one instance and then raises. -/
def Ec2.cellPageErr : Ec2.CellData :=
  { acct_num := "111111111111"
    region := "us-east-1"
    clientOk := true
    stsOk := true
    paginatorOk := true
    pages := [[[Ec2.sampleInstance "i-1"]]]
    pageIterError := true }

/-- A later healthy cell with one instance. -/
def Ec2.cellHealthy : Ec2.CellData :=
  { acct_num := "111111111111"
    region := "us-east-2"
    clientOk := true
    stsOk := true
    paginatorOk := true
    pages := [[[Ec2.sampleInstance "i-2"]]]
    pageIterError := false }

/-- A concrete native VPC record. -/
def Vpc.sampleVpc : Vpc.VpcData :=
  { vpcId := "vpc-0a1b"
    cidrBlock := "10.0.0.0/16"
    ipv6Set := none
    cidrAssocSet := [] }

/-! ## Helper lemmas -/

/-- Splitting a separator-joined pair is unambiguous when the left parts do
not contain the separator. -/
theorem append_sep_inj {sep : Char} (x1 : List Char) :
    ∀ (x2 y1 y2 : List Char), sep ∉ x1 → sep ∉ x2 →
      x1 ++ sep :: y1 = x2 ++ sep :: y2 → x1 = x2 ∧ y1 = y2 := by
  induction x1 with
  | nil =>
    intro x2 y1 y2 _ h2 h
    cases x2 with
    | nil => simpa using h
    | cons d x2 =>
      simp only [List.nil_append, List.cons_append, List.cons.injEq] at h
      exact absurd (h.1 ▸ List.mem_cons_self d x2) h2
  | cons c x1 ih =>
    intro x2 y1 y2 h1 h2 h
    cases x2 with
    | nil =>
      simp only [List.nil_append, List.cons_append, List.cons.injEq] at h
      exact absurd (h.1.symm ▸ List.mem_cons_self c x1) h1
    | cons d x2 =>
      simp only [List.cons_append, List.cons.injEq] at h
      have h1' : sep ∉ x1 := fun hm => h1 (List.mem_cons_of_mem _ hm)
      have h2' : sep ∉ x2 := fun hm => h2 (List.mem_cons_of_mem _ hm)
      obtain ⟨e1, e2⟩ := ih x2 y1 y2 h1' h2' h.2
      exact ⟨by rw [h.1, e1], e2⟩

/-- The underlying characters of the EC2 composite key. -/
theorem ec2Key_data (id a r : String) :
    (Ec2.ec2Key id a r).data = id.data ++ '_' :: (a.data ++ '_' :: r.data) := by
  simp [Ec2.ec2Key, String.data_append]

/-! ## Claim theorems (first batch) -/

/-- C4: a requested region sequence is filtered against the fixed allow-list;
a non-empty invalid subset is reported in one message naming every invalid
entry and the process exits with status 1 before `main` (hence before any
remote call); the input `["us-east-1", "mars-1"]` yields exactly
`["mars-1"]`. -/
theorem C4_invalid_regions_abort (regions : List String) :
    (∀ r, r ∈ Ec2.invalid_regions regions ↔
      r ∈ regions ∧ Ec2.VALID_REGIONS.contains r = false)
    ∧ (Ec2.invalid_regions regions ≠ [] →
        Ec2.scriptStartup regions =
          { exitCode := some 1
            errorLog := some ("Invalid region(s) specified: " ++
              String.intercalate ", " (Ec2.invalid_regions regions))
            mainInvoked := false })
    ∧ (Ec2.invalid_regions regions = [] →
        (Ec2.scriptStartup regions).mainInvoked = true)
    ∧ Ec2.invalid_regions ["us-east-1", "mars-1"] = ["mars-1"] := by
  refine ⟨?_, ?_, ?_, by decide⟩
  · intro r
    simp [Ec2.invalid_regions, List.mem_filter]
  · intro h
    simp [Ec2.scriptStartup, List.isEmpty_iff, h]
  · intro h
    simp [Ec2.scriptStartup, List.isEmpty_iff, h]

/-- C10: with dry-run off, the confirmation gate prompts and proceeds exactly
on the literal input `'yes'` (case-sensitive, no whitespace tolerated); with
dry-run on it proceeds without prompting; the sweep body runs exactly when
the gate returned true. -/
theorem C10_confirmation_gate_semantics (dryRun : Bool) (userInput : String) :
    ((Valkyrie.confirm_destruction_via_valkyrie dryRun userInput).prompted = !dryRun)
    ∧ ((Valkyrie.confirm_destruction_via_valkyrie dryRun userInput).confirmed = true ↔
        (dryRun = true ∨ userInput = "yes"))
    ∧ (Valkyrie.sweepBodyRuns dryRun userInput =
        (Valkyrie.confirm_destruction_via_valkyrie dryRun userInput).confirmed)
    ∧ (Valkyrie.confirm_destruction_via_valkyrie false "Yes").confirmed = false
    ∧ (Valkyrie.confirm_destruction_via_valkyrie false "yes ").confirmed = false := by
  refine ⟨?_, ?_, rfl, by decide, by decide⟩ <;>
    cases dryRun <;>
      by_cases h : userInput = "yes" <;>
        simp [Valkyrie.confirm_destruction_via_valkyrie, h]

/-- C3 counterexample: the VPC lister stores records under `vpc['VpcId']`
alone, so two distinct (native id, account, region) triples sharing the id
produce the same key — the claimed injectivity fails on the code. -/
theorem C3_vpc_key_ignores_account_region :
    (Vpc.vpcEntry "111111111111" "us-east-1" Vpc.sampleVpc).1 =
      (Vpc.vpcEntry "222222222222" "us-west-2" Vpc.sampleVpc).1
    ∧ (("111111111111" : String), ("us-east-1" : String)) ≠
        (("222222222222" : String), ("us-west-2" : String)) :=
  ⟨rfl, by decide⟩

/-- C3 amended: the EC2 lister's key `f"{id}_{acct}_{region}"` is a pure
function of the triple and is injective whenever the native id and the
account contain no underscore (true of AWS instance ids and account
numbers); the VPC lister's key is the native id alone, so it is pure in the
triple but collapses triples sharing an id. -/
theorem C3_amended_key_characterization (id1 a1 r1 id2 a2 r2 : String)
    (h1 : '_' ∉ id1.data) (h2 : '_' ∉ a1.data)
    (h3 : '_' ∉ id2.data) (h4 : '_' ∉ a2.data) :
    (Ec2.ec2Key id1 a1 r1 = Ec2.ec2Key id2 a2 r2 ↔
      (id1 = id2 ∧ a1 = a2 ∧ r1 = r2))
    ∧ (∀ v : Vpc.VpcData, (Vpc.vpcEntry a1 r1 v).1 = v.vpcId) := by
  constructor
  · constructor
    · intro h
      have hd : (Ec2.ec2Key id1 a1 r1).data = (Ec2.ec2Key id2 a2 r2).data := by rw [h]
      rw [ec2Key_data, ec2Key_data] at hd
      obtain ⟨e1, e2⟩ := append_sep_inj id1.data id2.data _ _ h1 h3 hd
      obtain ⟨e3, e4⟩ := append_sep_inj a1.data a2.data _ _ h2 h4 e2
      exact ⟨String.ext e1, String.ext e3, String.ext e4⟩
    · rintro ⟨rfl, rfl, rfl⟩
      rfl
  · intro v
    rfl

/-- Witness for C3's amended theorem at concrete underscore-free inputs. -/
theorem C3_amended_key_characterization_witness :
    (Vpc.vpcEntry "123456789012" "us-east-1" Vpc.sampleVpc).1 = Vpc.sampleVpc.vpcId :=
  (C3_amended_key_characterization "i-0abc" "123456789012" "us-east-1"
    "i-0abc" "123456789012" "us-east-1"
    (by decide) (by decide) (by decide) (by decide)).2 Vpc.sampleVpc

/-- C8 counterexample: with a column budget below 3 (reachable, e.g. a
terminal width of 10 makes the region budget `int(10*0.2) = 2`), the Python
slice `v[:budget-3]` has a negative bound, and the truncated value exceeds
the budget: the field `"abcd"` is longer than budget 2 yet renders as
`"abc..."`, 6 characters. -/
theorem C8_truncate_small_budget_overflows :
    2 < (TableFmt.truncateField "abcd" 2).length
    ∧ 2 < ("abcd" : String).length := by decide

/-- C8 amended: provided the column budget is at least 3, a field longer
than the budget truncates to exactly the budget (budget − 3 characters plus
the three-character ellipsis), so the output never exceeds the budget. -/
theorem C8_amended_truncate_within_budget (s : String) (budget : Nat)
    (h3 : 3 ≤ budget) (hlong : budget < s.length) :
    (TableFmt.truncateField s budget).length ≤ budget := by
  unfold TableFmt.truncateField TableFmt.pySliceTo
  rw [if_pos hlong]
  have hk : (0 : Int) ≤ (budget : Int) - 3 := by omega
  rw [if_pos hk]
  have hkn : ((budget : Int) - 3).toNat = budget - 3 := by omega
  rw [hkn, String.length_append, String.mk_length, List.length_take]
  have hdata : s.data.length = s.length := rfl
  have : ("..." : String).length = 3 := rfl
  omega

/-- Witness for C8's amended theorem at a concrete field and budget. -/
theorem C8_amended_truncate_within_budget_witness :
    (TableFmt.truncateField "abcdefghij" 5).length ≤ 5 :=
  C8_amended_truncate_within_budget "abcdefghij" 5 (by decide) (by decide)

/-- C1 (code bug): with `--dry-run` and `--outputformat JSON` on a non-empty
collection, `main` prints the JSON dump and then still opens and writes the
output file — the early `return` exists only in the table branch
(`list_ec2_instances.py` lines 97-106; `list_vpcs.py` and
`list_s3_buckets.py` share the shape), contradicting the `--dry-run` help
text "Show output without writing to a file".  The CSV (table) dry-run path
does skip the write. -/
theorem C1_dry_run_json_still_writes :
    (Ec2.outputPhase
      [Ec2.normalizeInstance "111111111111" "us-east-1" (Ec2.sampleInstance "i-1")]
      true Ec2.OutputFormat.JSON).fileWriteAttempted = true
    ∧ (Ec2.outputPhase
      [Ec2.normalizeInstance "111111111111" "us-east-1" (Ec2.sampleInstance "i-1")]
      true Ec2.OutputFormat.JSON).console = [Ec2.ConsoleEvent.jsonDump]
    ∧ (Ec2.outputPhase
      [Ec2.normalizeInstance "111111111111" "us-east-1" (Ec2.sampleInstance "i-1")]
      true Ec2.OutputFormat.CSV).fileWriteAttempted = false :=
  ⟨rfl, rfl, rfl⟩

/-- C6 counterexample: the lambda runtime lister has no empty-collection
check: with an empty collection and an output file it opens the file and
writes the header row (a header-only artifact) and warns about nothing. -/
theorem C6_lambda_lister_writes_header_only_file :
    LambdaLister.outputPhase [] "lambda_runtimes.csv" =
      { consoleLines := 0
        fileOpened := true
        fileRows := [["Account", "Function Name", "Runtime", "Region"]]
        warnedEmpty := false } := rfl

/-- C6 amended: the dict-based listers (EC2/VPC/S3 shape) warn on an empty
collection and return before any writer runs; the lambda runtime lister
never checks emptiness — with an output file it writes a header-only CSV,
and with console output it prints only the two header lines, warning in
neither case. -/
theorem C6_amended_empty_collection (dry_run : Bool) (fmt : Ec2.OutputFormat)
    (outfile : String) :
    (Ec2.outputPhase [] dry_run fmt =
      { warnedEmpty := true, console := [], fileWriteAttempted := false })
    ∧ (outfile ≠ "" → LambdaLister.outputPhase [] outfile =
        { consoleLines := 0
          fileOpened := true
          fileRows := [["Account", "Function Name", "Runtime", "Region"]]
          warnedEmpty := false })
    ∧ (LambdaLister.outputPhase [] "" =
        { consoleLines := 2, fileOpened := false, fileRows := [], warnedEmpty := false }) := by
  refine ⟨rfl, fun h => ?_, rfl⟩
  unfold LambdaLister.outputPhase
  rw [if_neg h]
  rfl

/-- C7 counterexample: `inst.get('PublicIpAddress')` has no `'N/A'` default
(`list_ec2_instances.py` line 87), so an instance without a public address
is stored with a null `publicipv4` field instead of the sentinel. -/
theorem C7_public_ip_left_null :
    (Ec2.normalizeInstance "111111111111" "us-east-1"
      (Ec2.sampleInstance "i-0bare")).2.publicipv4 = none
    ∧ (Ec2.sampleInstance "i-0bare").publicIpAddress = none :=
  ⟨rfl, rfl⟩

/-- C7 amended: every missing optional native field is substituted with the
`'N/A'` sentinel — name tag, availability zone, private IPv4, VPC and subnet
— except the public IPv4 address, which is stored as null when absent. -/
theorem C7_amended_sentinel_fields (acct_num region : String)
    (inst : Ec2.InstanceData) :
    (inst.tags = none →
      ((Ec2.normalizeInstance acct_num region inst).2).instance_name = "N/A")
    ∧ (inst.placementAz = none →
      ((Ec2.normalizeInstance acct_num region inst).2).az = "N/A")
    ∧ (inst.privateIpAddress = none →
      ((Ec2.normalizeInstance acct_num region inst).2).privateipv4 = "N/A")
    ∧ (inst.vpcId = none →
      ((Ec2.normalizeInstance acct_num region inst).2).vpc = "N/A")
    ∧ (inst.subnetId = none →
      ((Ec2.normalizeInstance acct_num region inst).2).subnet = "N/A")
    ∧ (inst.publicIpAddress = none →
      ((Ec2.normalizeInstance acct_num region inst).2).publicipv4 = none) := by
  refine ⟨?_, ?_, ?_, ?_, ?_, ?_⟩ <;> intro h <;>
    simp [Ec2.normalizeInstance, Ec2.instanceDisplayName, h]

/-! ## Sweep lemmas (C5) -/

/-- Under dry-run, processing a version list changes nothing. -/
theorem foldl_stepVersion_dry (ok : Valkyrie.DeleteCall → Bool) (b : String)
    (l : List Valkyrie.VersionEntry) (st : Valkyrie.SweepState) :
    l.foldl (Valkyrie.stepVersion true ok b) st = st := by
  induction l generalizing st with
  | nil => rfl
  | cons k l ih => simpa [Valkyrie.stepVersion] using ih st

/-- Under dry-run, processing a marker list changes nothing. -/
theorem foldl_stepMarker_dry (ok : Valkyrie.DeleteCall → Bool) (b : String)
    (l : List Valkyrie.VersionEntry) (st : Valkyrie.SweepState) :
    l.foldl (Valkyrie.stepMarker true ok b) st = st := by
  induction l generalizing st with
  | nil => rfl
  | cons k l ih => simpa [Valkyrie.stepMarker] using ih st

/-- Under dry-run the whole sweep leaves the initial state untouched. -/
theorem sweepMain_dry (ok : Valkyrie.DeleteCall → Bool)
    (buckets : List (String × List Valkyrie.PageData)) :
    Valkyrie.sweepMain true ok buckets =
      { deleteCalls := [], objects := 0, markers := 0 } := by
  unfold Valkyrie.sweepMain
  generalize ({ deleteCalls := [], objects := 0, markers := 0 } : Valkyrie.SweepState) = st
  induction buckets generalizing st with
  | nil => rfl
  | cons unit buckets ih =>
    rw [List.foldl_cons]
    have hb : Valkyrie.processBucket true ok st unit = st := by
      unfold Valkyrie.processBucket
      induction unit.2 generalizing st with
      | nil => rfl
      | cons p pages ihp =>
        rw [List.foldl_cons]
        have hpg : Valkyrie.processPage true ok unit.1 st p = st := by
          unfold Valkyrie.processPage
          rw [foldl_stepVersion_dry, foldl_stepMarker_dry]
        rw [hpg]
        exact ihp st
    rw [hb]
    exact ih st

/-- One live version step: one delete call, the object counter up by one
exactly on success. -/
theorem stepVersion_live (ok : Valkyrie.DeleteCall → Bool) (b : String)
    (st : Valkyrie.SweepState) (k : Valkyrie.VersionEntry) :
    Valkyrie.stepVersion false ok b st k =
      { deleteCalls := st.deleteCalls ++ [(b, k.key, k.versionId)]
        objects := st.objects + (if ok (b, k.key, k.versionId) then 1 else 0)
        markers := st.markers } := by
  unfold Valkyrie.stepVersion
  cases h : ok (b, k.key, k.versionId) <;> simp [h]

/-- One live marker step: symmetric, for the marker counter. -/
theorem stepMarker_live (ok : Valkyrie.DeleteCall → Bool) (b : String)
    (st : Valkyrie.SweepState) (k : Valkyrie.VersionEntry) :
    Valkyrie.stepMarker false ok b st k =
      { deleteCalls := st.deleteCalls ++ [(b, k.key, k.versionId)]
        objects := st.objects
        markers := st.markers + (if ok (b, k.key, k.versionId) then 1 else 0) } := by
  unfold Valkyrie.stepMarker
  cases h : ok (b, k.key, k.versionId) <;> simp [h]

/-- Live processing of a version list: every entry issues one delete call in
order, and the object counter grows by exactly the successful ones. -/
theorem foldl_stepVersion_live (ok : Valkyrie.DeleteCall → Bool) (b : String)
    (l : List Valkyrie.VersionEntry) (st : Valkyrie.SweepState) :
    l.foldl (Valkyrie.stepVersion false ok b) st =
      { deleteCalls := st.deleteCalls ++ l.map (fun k => (b, k.key, k.versionId))
        objects := st.objects + (l.map (fun k => (b, k.key, k.versionId))).countP ok
        markers := st.markers } := by
  induction l generalizing st with
  | nil => simp
  | cons k l ih =>
    rw [List.foldl_cons, stepVersion_live, ih]
    simp only [List.map_cons, List.countP_cons, List.append_assoc,
      List.singleton_append, Valkyrie.SweepState.mk.injEq]
    refine ⟨trivial, by omega, trivial⟩

/-- Live processing of a marker list. -/
theorem foldl_stepMarker_live (ok : Valkyrie.DeleteCall → Bool) (b : String)
    (l : List Valkyrie.VersionEntry) (st : Valkyrie.SweepState) :
    l.foldl (Valkyrie.stepMarker false ok b) st =
      { deleteCalls := st.deleteCalls ++ l.map (fun k => (b, k.key, k.versionId))
        objects := st.objects
        markers := st.markers + (l.map (fun k => (b, k.key, k.versionId))).countP ok } := by
  induction l generalizing st with
  | nil => simp
  | cons k l ih =>
    rw [List.foldl_cons, stepMarker_live, ih]
    simp only [List.map_cons, List.countP_cons, List.append_assoc,
      List.singleton_append, Valkyrie.SweepState.mk.injEq]
    refine ⟨trivial, trivial, by omega⟩

/-- One live page: versions then markers. -/
theorem processPage_live (ok : Valkyrie.DeleteCall → Bool) (b : String)
    (st : Valkyrie.SweepState) (p : Valkyrie.PageData) :
    Valkyrie.processPage false ok b st p =
      { deleteCalls := st.deleteCalls ++
          (p.versions.map (fun k => (b, k.key, k.versionId)) ++
           p.deleteMarkers.map (fun k => (b, k.key, k.versionId)))
        objects := st.objects +
          (p.versions.map (fun k => (b, k.key, k.versionId))).countP ok
        markers := st.markers +
          (p.deleteMarkers.map (fun k => (b, k.key, k.versionId))).countP ok } := by
  unfold Valkyrie.processPage
  rw [foldl_stepVersion_live, foldl_stepMarker_live]
  simp [List.append_assoc]

/-- Live processing of one bucket unit's pages. -/
theorem foldl_processPage_live (ok : Valkyrie.DeleteCall → Bool) (b : String)
    (pages : List Valkyrie.PageData) (st : Valkyrie.SweepState) :
    pages.foldl (Valkyrie.processPage false ok b) st =
      { deleteCalls := st.deleteCalls ++ pages.flatMap (fun p =>
          p.versions.map (fun k => (b, k.key, k.versionId)) ++
          p.deleteMarkers.map (fun k => (b, k.key, k.versionId)))
        objects := st.objects + (pages.flatMap (fun p =>
          p.versions.map (fun k => (b, k.key, k.versionId)))).countP ok
        markers := st.markers + (pages.flatMap (fun p =>
          p.deleteMarkers.map (fun k => (b, k.key, k.versionId)))).countP ok } := by
  induction pages generalizing st with
  | nil => simp
  | cons p pages ih =>
    rw [List.foldl_cons, processPage_live, ih]
    simp only [List.flatMap_cons, List.countP_append, List.append_assoc,
      Valkyrie.SweepState.mk.injEq]
    refine ⟨trivial, by omega, by omega⟩

/-- Live processing of the whole bucket list. -/
theorem foldl_processBucket_live (ok : Valkyrie.DeleteCall → Bool)
    (buckets : List (String × List Valkyrie.PageData)) (st : Valkyrie.SweepState) :
    buckets.foldl (Valkyrie.processBucket false ok) st =
      { deleteCalls := st.deleteCalls ++ Valkyrie.allCalls buckets
        objects := st.objects + (Valkyrie.versionCalls buckets).countP ok
        markers := st.markers + (Valkyrie.markerCalls buckets).countP ok } := by
  induction buckets generalizing st with
  | nil => simp [Valkyrie.allCalls, Valkyrie.versionCalls, Valkyrie.markerCalls]
  | cons unit buckets ih =>
    rw [List.foldl_cons]
    have hb : Valkyrie.processBucket false ok st unit =
        { deleteCalls := st.deleteCalls ++ unit.2.flatMap (fun p =>
            p.versions.map (fun k => (unit.1, k.key, k.versionId)) ++
            p.deleteMarkers.map (fun k => (unit.1, k.key, k.versionId)))
          objects := st.objects + (unit.2.flatMap (fun p =>
            p.versions.map (fun k => (unit.1, k.key, k.versionId)))).countP ok
          markers := st.markers + (unit.2.flatMap (fun p =>
            p.deleteMarkers.map (fun k => (unit.1, k.key, k.versionId)))).countP ok } := by
      unfold Valkyrie.processBucket
      rw [foldl_processPage_live]
    rw [hb, ih]
    simp only [Valkyrie.allCalls, Valkyrie.versionCalls, Valkyrie.markerCalls,
      List.flatMap_cons, List.countP_append, List.append_assoc,
      Valkyrie.SweepState.mk.injEq]
    refine ⟨trivial, by omega, by omega⟩

/-- C5: with dry-run on, the sweeper issues no delete call and both counters
stay at zero for every listed page sequence; with dry-run off, every listed
version and marker gets exactly one delete attempt in listing order (a
failed delete aborts nothing and increments nothing), and each counter
equals the number of confirmed successful deletions of its kind. -/
theorem C5_sweep_counter_semantics (ok : Valkyrie.DeleteCall → Bool)
    (buckets : List (String × List Valkyrie.PageData)) :
    ((Valkyrie.sweepMain true ok buckets).deleteCalls = []
      ∧ (Valkyrie.sweepMain true ok buckets).objects = 0
      ∧ (Valkyrie.sweepMain true ok buckets).markers = 0)
    ∧ ((Valkyrie.sweepMain false ok buckets).deleteCalls = Valkyrie.allCalls buckets
      ∧ (Valkyrie.sweepMain false ok buckets).objects =
          (Valkyrie.versionCalls buckets).countP ok
      ∧ (Valkyrie.sweepMain false ok buckets).markers =
          (Valkyrie.markerCalls buckets).countP ok) := by
  constructor
  · rw [sweepMain_dry]
    exact ⟨rfl, rfl, rfl⟩
  · unfold Valkyrie.sweepMain
    rw [foldl_processBucket_live]
    exact ⟨by simp, by simp, by simp⟩

/-! ## Cell-failure lemmas (C2) -/

/-- A cell whose page iteration does not raise always yields `.ok` with its
`cellStep` contribution (caught setup failures contribute nothing). -/
theorem processCell_ok_of_no_iter_error (found : List (String × Ec2.InstanceRecord))
    (c : Ec2.CellData) (h : c.pageIterError = false) :
    Ec2.processCell found c = .ok (Ec2.cellStep found c) := by
  unfold Ec2.processCell Ec2.cellStep
  cases hc : c.clientOk <;> cases hs : c.stsOk <;> cases hp : c.paginatorOk <;>
    simp [hc, hs, hp, h]

/-- When no cell's page iteration raises, the grid loop completes and folds
every cell's contribution, caught setup failures included. -/
theorem runCells_ok_of_no_iter_error (cells : List Ec2.CellData) :
    ∀ found, (∀ x ∈ cells, x.pageIterError = false) →
      Ec2.runCells cells found = .ok (cells.foldl Ec2.cellStep found) := by
  induction cells with
  | nil =>
    intro found _
    rfl
  | cons x cells ih =>
    intro found h
    have hx := processCell_ok_of_no_iter_error found x (h x (List.mem_cons_self x cells))
    simp only [Ec2.runCells, hx, List.foldl_cons]
    exact ih (Ec2.cellStep found x) (fun y hy => h y (List.mem_cons_of_mem x hy))

/-- A cell that passes setup but raises while iterating pages aborts the
whole run, carrying the records of the pages it had already yielded; the
cells after it are never processed. -/
theorem runCells_error_head (c : Ec2.CellData) (cs : List Ec2.CellData)
    (found : List (String × Ec2.InstanceRecord))
    (hc : c.clientOk = true) (hs : c.stsOk = true) (hp : c.paginatorOk = true)
    (he : c.pageIterError = true) :
    Ec2.runCells (c :: cs) found = .error (Ec2.insertCellPages found c) := by
  have hpc : Ec2.processCell found c = .error (Ec2.insertCellPages found c) := by
    unfold Ec2.processCell
    simp [hc, hs, hp, he]
  simp only [Ec2.runCells, hpc]

/-- C2 counterexample: a cell whose paginator yields one page (one instance)
and then raises aborts the entire run — the uncaught exception propagates
out of `main` — so the later healthy cell's record never appears: the error
payload holds only the first cell's record. -/
theorem C2_page_error_aborts_run :
    runAborts (Ec2.runCells [Ec2.cellPageErr, Ec2.cellHealthy] []) = true
    ∧ Ec2.runCells [Ec2.cellPageErr, Ec2.cellHealthy] [] =
        .error [Ec2.normalizeInstance "111111111111" "us-east-1"
          (Ec2.sampleInstance "i-1")] :=
  ⟨rfl, rfl⟩

/-- C2 amended: failures caught per cell (client construction, STS lookup,
`get_paginator`) are isolated — when no cell raises during page iteration
the run completes with every cell's contribution folded in; but an error
raised while iterating a cell's pages is uncaught: records already
normalized from that cell's earlier pages are in the collection the
exception carries, and the run aborts without processing any later cell. -/
theorem C2_amended_failure_isolation (cells : List Ec2.CellData)
    (found : List (String × Ec2.InstanceRecord)) (c : Ec2.CellData)
    (cs : List Ec2.CellData) :
    ((∀ x ∈ cells, x.pageIterError = false) →
      Ec2.runCells cells found = .ok (cells.foldl Ec2.cellStep found))
    ∧ (c.clientOk = true → c.stsOk = true → c.paginatorOk = true →
        c.pageIterError = true →
        Ec2.runCells (c :: cs) found = .error (Ec2.insertCellPages found c)) :=
  ⟨fun h => runCells_ok_of_no_iter_error cells found h,
   fun hc hs hp he => runCells_error_head c cs found hc hs hp he⟩

/-! ## Wrap lemmas (C9) -/

/-- The wrap loop on no chunks yields no lines, whatever the fuel. -/
theorem wrapChunksFuel_empty (w fuel : Nat) (le : Bool) :
    TableFmt.wrapChunksFuel w fuel le [] = [] := by
  cases fuel <;> rfl

/-- A non-empty chunk of non-space characters is not a whitespace chunk. -/
theorem isSpaceChunk_false_of (l : List Char) (hne : l ≠ [])
    (h : ∀ c ∈ l, (c == '\x20') = false) :
    TableFmt.isSpaceChunk l = false := by
  cases l with
  | nil => exact absurd rfl hne
  | cons c cs =>
    simp only [TableFmt.isSpaceChunk, List.all_cons,
      h c (List.mem_cons_self c cs), Bool.false_and]

/-- A non-whitespace character is in particular not a space. -/
theorem pyWS_false_space (c : Char) (h : TableFmt.pyWS c = false) :
    (c == '\x20') = false := by
  simp only [TableFmt.pyWS, Bool.or_eq_false_iff] at h
  exact h.2

/-- Whitespace replacement is the identity on whitespace-free text. -/
theorem normalizeWS_id (l : List Char) (h : ∀ c ∈ l, TableFmt.pyWS c = false) :
    TableFmt.normalizeWS l = l := by
  induction l with
  | nil => rfl
  | cons c cs ih =>
    have h1 : TableFmt.pyWS c = false := h c (List.mem_cons_self c cs)
    have ih' := ih (fun x hx => h x (List.mem_cons_of_mem c hx))
    unfold TableFmt.normalizeWS at ih' ⊢
    simp [h1, ih']

/-- A whitespace-free text is one single chunk. -/
theorem splitChunks_nospace (l : List Char)
    (h : ∀ c ∈ l, (c == '\x20') = false) :
    TableFmt.splitChunks l = if l = [] then [] else [l] := by
  induction l with
  | nil => rfl
  | cons c cs ih =>
    have ih' := ih (fun x hx => h x (List.mem_cons_of_mem c hx))
    cases cs with
    | nil => rfl
    | cons d cs2 =>
      rw [if_neg (by simp)] at ih'
      have hc := h c (List.mem_cons_self c (d :: cs2))
      have hd : (d == '\x20') = false := h d (by simp)
      rw [TableFmt.splitChunks, ih']
      simp [hc, hd]

/-- One wrap iteration on a single short whitespace-free chunk emits it as
the line and finishes. -/
theorem lineStep_single_short (w : Nat) (l : List Char) (le : Bool)
    (hne : l ≠ []) (h : ∀ c ∈ l, (c == '\x20') = false) (hlen : l.length ≤ w) :
    TableFmt.lineStep w le [l] = (some l, []) := by
  have hsp := isSpaceChunk_false_of l hne h
  have hfits : 0 + l.length ≤ w := by omega
  cases le <;>
    simp [TableFmt.lineStep, hsp, TableFmt.fillLine, hfits, hlen,
      TableFmt.dropTrailingSpaceChunk, hne]

/-- One wrap iteration on a single over-width whitespace-free chunk breaks
off exactly `w` characters and leaves the rest. -/
theorem lineStep_single_long (w : Nat) (hw : 1 ≤ w) (l : List Char) (le : Bool)
    (h : ∀ c ∈ l, (c == '\x20') = false) (hlong : w < l.length) :
    TableFmt.lineStep w le [l] = (some (l.take w), [l.drop w]) := by
  have hne : l ≠ [] := by
    intro e
    rw [e] at hlong
    simp at hlong
  have hsp := isSpaceChunk_false_of l hne h
  have htne : l.take w ≠ [] := by
    intro e
    rcases List.take_eq_nil_iff.mp e with h0 | h0
    · omega
    · exact hne h0
  have htsp := isSpaceChunk_false_of (l.take w) htne
    (fun c hc => h c (List.take_subset w l hc))
  have hnofit : ¬ (0 + l.length ≤ w) := by omega
  have hsw : ¬ (l.length ≤ w) := by omega
  have hnw : ¬ (w < 1) := by omega
  have hw0 : ¬ (w = 0) := by omega
  cases le <;>
    simp [TableFmt.lineStep, hsp, TableFmt.fillLine, hnofit, hsw, hlong, hnw, hw0,
      TableFmt.chunksLen, TableFmt.dropTrailingSpaceChunk, htsp, htne]

/-- The wrap loop on one whitespace-free chunk loses no characters: the
lines flatten back to the chunk. -/
theorem wrapFuel_nospace (w : Nat) (hw : 1 ≤ w) :
    ∀ (fuel : Nat) (l : List Char) (le : Bool), l ≠ [] →
      (∀ c ∈ l, (c == '\x20') = false) → l.length ≤ fuel →
      (TableFmt.wrapChunksFuel w fuel le [l]).flatten = l := by
  intro fuel
  induction fuel with
  | zero =>
    intro l le hne h hlen
    cases l with
    | nil => exact absurd rfl hne
    | cons c cs => simp at hlen
  | succ fuel ih =>
    intro l le hne h hlen
    by_cases hsw : l.length ≤ w
    · have hstep := lineStep_single_short w l le hne h hsw
      simp only [TableFmt.wrapChunksFuel, hstep]
      simp [wrapChunksFuel_empty]
    · have hlong : w < l.length := Nat.not_le.mp hsw
      have hstep := lineStep_single_long w hw l le h hlong
      simp only [TableFmt.wrapChunksFuel, hstep]
      rw [List.flatten_cons]
      have hdlen := List.length_drop w l
      have hdne : l.drop w ≠ [] := by
        intro e
        rw [e] at hdlen
        simp at hdlen
        omega
      rw [ih (l.drop w) false hdne
        (fun c hc => h c (List.drop_subset w l hc)) (by omega)]
      exact List.take_append_drop w l

/-- C9 counterexample: wrapping `"ab cd"` at width 2 yields the lines
`["ab", "cd"]` — the space at the line break is dropped, so the
reconstruction with newlines removed is `"abcd"`, not the original field. -/
theorem C9_wrap_drops_space :
    TableFmt.wrapField "ab cd" 2 = "ab\ncd"
    ∧ String.join (TableFmt.pythonWrap "ab cd" 2) ≠ "ab cd" := by
  constructor
  · rfl
  · decide

/-- C9 amended: for a field with no whitespace (the shape of ids, accounts,
buckets and regions), wrap mode never drops characters — joining the wrapped
lines (newlines removed) reconstructs the original field.  When the field
contains whitespace, the whitespace at each break is dropped. -/
theorem C9_amended_wrap_lossless (s : String) (w : Nat) (hw : 1 ≤ w)
    (h : ∀ c ∈ s.data, TableFmt.pyWS c = false) :
    String.join (TableFmt.pythonWrap s w) = s := by
  have h2 : ∀ c ∈ s.data, (c == '\x20') = false :=
    fun c hc => pyWS_false_space c (h c hc)
  apply String.ext
  rw [String.data_join]
  simp only [TableFmt.pythonWrap]
  rw [normalizeWS_id s.data h, splitChunks_nospace s.data h2]
  by_cases hnil : s.data = []
  · rw [if_pos hnil]
    simp [wrapChunksFuel_empty, hnil]
  · rw [if_neg hnil]
    have hfuel : s.data.length ≤
        TableFmt.chunksLen [s.data] + ([s.data] : List (List Char)).length + 1 := by
      simp [TableFmt.chunksLen]
      omega
    have hx := wrapFuel_nospace w hw
      (TableFmt.chunksLen [s.data] + ([s.data] : List (List Char)).length + 1)
      s.data true hnil h2 hfuel
    simp only [List.map_map]
    rw [show (String.data ∘ fun d => (⟨d⟩ : String)) = id from rfl, List.map_id]
    exact hx

/-- Witness for C9's amended theorem at a concrete whitespace-free field. -/
theorem C9_amended_wrap_lossless_witness :
    String.join (TableFmt.pythonWrap "abcdefgh" 3) = "abcdefgh" :=
  C9_amended_wrap_lossless "abcdefgh" 3 (by decide) (by decide)
